import Mathlib

/-!
Verification of the conversation synchronization and notification engine of
the slack-for-vscode extension: a shallow embedding of the request gateway
(pagination, bounded concurrency), the unread accounting, and the background
notification poller, together with theorems settling the specified
properties.
-/

namespace SlackVscode

/-- JavaScript truthiness of an optional string: undefined and the empty
string are falsy, every other string is truthy. -/
def optTruthy : Option String → Bool
  | none => false
  | some s => s != ""

/-- Lexicographic comparison of character lists by code point, the JS
relational comparison of strings (Slack timestamps are ASCII, where code
unit and code point order agree). -/
def charListLt : List Char → List Char → Bool
  | [], [] => false
  | [], _ :: _ => true
  | _ :: _, [] => false
  | a :: as, b :: bs =>
    if a.toNat < b.toNat then true
    else if b.toNat < a.toNat then false
    else charListLt as bs

/-- JS string comparison a < b. -/
def strLtB (a b : String) : Bool := charListLt a.data b.data

instance {ε α : Type} [DecidableEq ε] [DecidableEq α] :
    DecidableEq (Except ε α) := fun a b =>
  match a, b with
  | .ok x, .ok y =>
    if h : x = y then isTrue (by rw [h])
    else isFalse (by intro hc; cases hc; exact h rfl)
  | .error x, .error y =>
    if h : x = y then isTrue (by rw [h])
    else isFalse (by intro hc; cases hc; exact h rfl)
  | .ok _, .error _ => isFalse (by intro hc; cases hc)
  | .error _, .ok _ => isFalse (by intro hc; cases hc)

/-- Lookup in an insertion-ordered association list, mirroring JS Map.get. -/
def mapGet (m : List (String × Nat)) (k : String) : Option Nat :=
  (m.find? (fun p => p.1 == k)).map (fun p => p.2)

/-- Update in an insertion-ordered association list, mirroring JS Map.set:
replace in place when the key exists, append otherwise. -/
def mapSet (m : List (String × Nat)) (k : String) (v : Nat) : List (String × Nat) :=
  if m.any (fun p => p.1 == k) then
    m.map (fun p => if p.1 == k then (k, v) else p)
  else
    m ++ [(k, v)]

/-- A channel record as returned by the channel-listing gateway (interface
SlackChannel in src/slackApiClient.ts). -/
structure SlackChannel where
  id : String
  name : String
  is_private : Bool
  is_member : Bool
  unread_count : Option Nat
deriving DecidableEq

/-- One pinned direct-message entry as stored in global state under
slack-for-vscode.pinnedDMs. -/
structure PinnedDM where
  dmId : String
  userName : String
deriving DecidableEq

/-- A notification request as accumulated in the news array of
checkNewMessages: conversation id, display name, positive delta. -/
structure NotificationEvent where
  id : String
  name : String
  count : Nat
deriving DecidableEq

/-- The remote and collaborator behavior one poll cycle observes: the token
from the auth manager, the pinned DMs from global state, the outcome of
client.getChannels(), and the outcome of client.getUnreadCount per DM id.
An error value models a thrown exception. -/
structure PollEnv where
  token : Option String
  pinnedDMs : List PinnedDM
  channels : Except Unit (List SlackChannel)
  dmCount : String → Except Unit Nat

/-- Mutable state of SlackNotificationManager: the interval timer handle,
the unreadCache map and the isFirstRun flag. -/
structure MgrState where
  timer : Option Nat
  unreadCache : List (String × Nat)
  isFirstRun : Bool
deriving DecidableEq

/-- One iteration of the channel loop of checkNewMessages: record the
channel's count in the new cache and, except on the first run, push a news
item when the count is strictly above the previously cached count (absent
entries count as 0). -/
def chanStep (st : MgrState) (acc : List (String × Nat) × List NotificationEvent)
    (ch : SlackChannel) : List (String × Nat) × List NotificationEvent :=
  let count := ch.unread_count.getD 0
  let cache := mapSet acc.1 ch.id count
  let news :=
    if !st.isFirstRun then
      let prev := (mapGet st.unreadCache ch.id).getD 0
      if count > prev then acc.2 ++ [⟨ch.id, "#" ++ ch.name, count - prev⟩]
      else acc.2
    else acc.2
  (cache, news)

/-- The channel loop of checkNewMessages. -/
def channelPass (st : MgrState) (chans : List SlackChannel) :
    List (String × Nat) × List NotificationEvent :=
  chans.foldl (chanStep st) ([], [])

/-- The pinned-DM loop of checkNewMessages: fetch each unread count (a
thrown fetch aborts the whole try block), cache it, and push a news item
for every strictly increased count except on the first run. -/
def dmPass (env : PollEnv) (st : MgrState) :
    List PinnedDM → List (String × Nat) → List NotificationEvent →
    Except Unit (List (String × Nat) × List NotificationEvent)
  | [], cache, news => .ok (cache, news)
  | dm :: rest, cache, news =>
    match env.dmCount dm.dmId with
    | .error e => .error e
    | .ok count =>
      let cache2 := mapSet cache dm.dmId count
      let news2 :=
        if !st.isFirstRun then
          let prev := (mapGet st.unreadCache dm.dmId).getD 0
          if count > prev then news ++ [⟨dm.dmId, dm.userName, count - prev⟩]
          else news
        else news
      dmPass env st rest cache2 news2

/-- One poll cycle (checkNewMessages in src/slackNotificationManager.ts):
skip when no token; otherwise build the new cache from channels and pinned
DMs, collecting news entries against the previous cache; on success install
the new cache and clear the first-run flag and emit the news; a thrown
exception anywhere in the try block leaves the state untouched and emits
nothing. -/
def checkNewMessages (env : PollEnv) (st : MgrState) :
    MgrState × List NotificationEvent :=
  if !(optTruthy env.token) then (st, [])
  else
    match env.channels with
    | .error _ => (st, [])
    | .ok chans =>
      let cp := channelPass st chans
      match dmPass env st env.pinnedDMs cp.1 cp.2 with
      | .error _ => (st, [])
      | .ok res =>
        ({ st with unreadCache := res.1, isFirstRun := false }, res.2)

/-- The start method: a no-op when the timer is already set; otherwise run
one immediate cycle, then arm the interval timer.  Returns the new state
and the notifications emitted by the immediate cycle. -/
def start (env : PollEnv) (st : MgrState) : MgrState × List NotificationEvent :=
  match st.timer with
  | some _ => (st, [])
  | none =>
    let r := checkNewMessages env st
    ({ r.1 with timer := some 0 }, r.2)

/-- The stop method: clear the interval timer when set, otherwise leave the
state unchanged. -/
def stop (st : MgrState) : MgrState :=
  match st.timer with
  | some _ => { st with timer := none }
  | none => st

/-- Whether an Except value is a success, mirroring an un-thrown call. -/
def exceptOk {ε α : Type} : Except ε α → Bool
  | .ok _ => true
  | .error _ => false

/-- The try block of a cycle runs to completion without a thrown exception:
the token is present and truthy, the channel listing succeeds, and every
pinned-DM unread fetch succeeds. -/
def cycleOk (env : PollEnv) : Bool :=
  optTruthy env.token && exceptOk env.channels &&
    env.pinnedDMs.all (fun dm => exceptOk (env.dmCount dm.dmId))

/-- One cache update of the channel loop, without the news bookkeeping. -/
def chanCacheStep (cache : List (String × Nat)) (ch : SlackChannel) :
    List (String × Nat) :=
  mapSet cache ch.id (ch.unread_count.getD 0)

/-- The cache a successful DM loop builds on top of the channel cache. -/
def dmCachePass (env : PollEnv) :
    List PinnedDM → List (String × Nat) → Except Unit (List (String × Nat))
  | [], cache => .ok cache
  | dm :: rest, cache =>
    match env.dmCount dm.dmId with
    | .error e => .error e
    | .ok count => dmCachePass env rest (mapSet cache dm.dmId count)

/-- The new cache a successful cycle installs, as a function of the
observed environment alone: the channel counts followed by the pinned-DM
counts (the newCache slice of checkNewMessages). -/
def builtSnapshot (env : PollEnv) : Except Unit (List (String × Nat)) :=
  match env.channels with
  | .error e => .error e
  | .ok chans => dmCachePass env env.pinnedDMs (chans.foldl chanCacheStep [])

/-- A message record as returned by conversations.history (interface
SlackMessage in src/slackApiClient.ts, the fields the unread filter
reads). -/
structure SlackMessage where
  ts : String
  user : Option String
  subtype : Option String
  text : Option String
deriving DecidableEq

/-- The outcome of conversations.info that getConversationUnreadCount
reads: the ok flag and channel.last_read. -/
structure InfoResult where
  ok : Bool
  lastRead : Option String
deriving DecidableEq

/-- The outcome of conversations.history that getConversationUnreadCount
reads: the ok flag and the returned messages. -/
structure HistoryResult where
  ok : Bool
  messages : List SlackMessage
deriving DecidableEq

/-- The remote behavior one unread-count computation observes for a fixed
conversation id: the conversations.info outcome, the conversations.history
outcome keyed by the oldest parameter, the cached own user id resolved by
testAuth, and the lastReadCache entry for this conversation.  An error
value models a thrown exception. -/
structure ConvEnv where
  infoRes : Except Unit InfoResult
  histRes : String → Except Unit HistoryResult
  myUserId : Option String
  cachedLastRead : Option String

/-- The marker actually used: the cached last-read timestamp replaces the
fetched one when the cache entry is truthy and either the fetched marker is
falsy or the cached one compares strictly greater. -/
def effectiveLastRead (cached fetched : Option String) : Option String :=
  match cached with
  | none => fetched
  | some c =>
    if (c != "") &&
        (!(optTruthy fetched) ||
          (match fetched with
           | some l => strLtB l c
           | none => true)) then
      some c
    else fetched

/-- The per-message unread filter of getConversationUnreadCount: drop
messages with a truthy subtype, and drop messages authored by the resolved
own user id when that id is truthy. -/
def keepUnread (myUserId : Option String) (m : SlackMessage) : Bool :=
  !(optTruthy m.subtype) && !(optTruthy myUserId && (m.user == myUserId))

/-- The unread accounting of getConversationUnreadCount: 0 when the info
call throws or is not ok; 0 when the effective last-read marker is falsy;
otherwise the number of history messages after the marker that pass the
unread filter, with 0 when the history call throws or is not ok. -/
def getConversationUnreadCount (env : ConvEnv) : Nat :=
  match env.infoRes with
  | .error _ => 0
  | .ok info =>
    if !info.ok then 0
    else
      match effectiveLastRead env.cachedLastRead info.lastRead with
      | none => 0
      | some marker =>
        if marker == "" then 0
        else
          match env.histRes marker with
          | .error _ => 0
          | .ok hist =>
            if !hist.ok then 0
            else (hist.messages.filter (keepUnread env.myUserId)).length

/-- One remote response to the channel-listing call: the ok flag, the
channels field and response_metadata.next_cursor defaulted to the empty
string. -/
structure ListPage where
  ok : Bool
  channels : List SlackChannel
  nextCursor : String
deriving DecidableEq

/-- The pagination loop of _listAllChannels run against a scripted sequence
of remote responses, one per request: filter member channels, append,
continue while the returned cursor is non-empty.  Accumulates the collected
channels and the number of requests issued; an error models a thrown
SlackError, also when the script has no further response. -/
def listPagesGo : List ListPage → List SlackChannel → Nat →
    Except Unit (List SlackChannel × Nat)
  | [], _, _ => .error ()
  | p :: rest, acc, n =>
    if !p.ok then .error ()
    else
      let acc2 := acc ++ p.channels.filter (fun ch => ch.is_member)
      if p.nextCursor == "" then .ok (acc2, n + 1)
      else listPagesGo rest acc2 (n + 1)

/-- The pagination loop started on an empty accumulator and cursor. -/
def listAllChannels (pages : List ListPage) :
    Except Unit (List SlackChannel × Nat) :=
  listPagesGo pages [] 0

/-- The same pagination loop run against a remote modelled as a function
from the request cursor to the response (the first request carries the
empty cursor), with an explicit iteration bound: none means the loop has
not finished within the bound. -/
def listFuelGo (remote : String → ListPage) :
    Nat → String → List SlackChannel → Nat →
    Option (Except Unit (List SlackChannel × Nat))
  | 0, _, _, _ => none
  | fuel + 1, cursor, acc, n =>
    let p := remote cursor
    if !p.ok then some (.error ())
    else
      let acc2 := acc ++ p.channels.filter (fun ch => ch.is_member)
      if p.nextCursor == "" then some (.ok (acc2, n + 1))
      else listFuelGo remote fuel p.nextCursor acc2 (n + 1)

/-- The bounded pagination loop started on an empty accumulator and
cursor. -/
def listAllChannelsFuel (remote : String → ListPage) (fuel : Nat) :
    Option (Except Unit (List SlackChannel × Nat)) :=
  listFuelGo remote fuel "" [] 0

/-- A remote that answers every request, whatever its cursor, with a
successful page carrying the same non-empty continuation cursor. -/
def constCursorRemote : String → ListPage := fun _ => ⟨true, [], "c"⟩

/-- Status of one worker of the bounded-concurrency pool: at the top of
its while loop, suspended on the task it claimed at the shared index, or
finished. -/
inductive WStatus where
  | atLoop : WStatus
  | awaiting : Nat → WStatus
  | done : WStatus
deriving DecidableEq

/-- The shared mutable state of withConcurrencyLimit: the shared queue
index, the results array (none models an unfilled slot, i.e. the JS value
undefined), and the workers. -/
structure PoolState (R : Type) where
  idx : Nat
  results : List (Option R)
  workers : List WStatus

/-- One cooperative step of worker w of withConcurrencyLimit over n tasks
(tasks i = none models a task that throws; its slot is left unfilled by
the catch branch).  A worker at its loop head either claims the next index
atomically or finishes; a suspended worker resumes, stores its result on
success, and returns to the loop head. -/
def poolStep {R : Type} (n : Nat) (tasks : Nat → Option R)
    (s : PoolState R) (w : Nat) : PoolState R :=
  match s.workers.get? w with
  | none => s
  | some WStatus.done => s
  | some WStatus.atLoop =>
    if s.idx < n then
      { s with idx := s.idx + 1, workers := s.workers.set w (WStatus.awaiting s.idx) }
    else
      { s with workers := s.workers.set w WStatus.done }
  | some (WStatus.awaiting i) =>
    match tasks i with
    | some r =>
      { s with results := s.results.set i (some r),
               workers := s.workers.set w WStatus.atLoop }
    | none => { s with workers := s.workers.set w WStatus.atLoop }

/-- Run the pool under an explicit schedule: the list of worker choices the
cooperative scheduler makes, in order. -/
def poolRun {R : Type} (n : Nat) (tasks : Nat → Option R)
    (s : PoolState R) : List Nat → PoolState R
  | [] => s
  | c :: cs => poolRun n tasks (poolStep n tasks s c) cs

/-- The initial pool state of withConcurrencyLimit over n tasks with limit
k: shared index 0, a fresh unfilled results array of length n, and
min k n workers started at their loop heads. -/
def poolInit (R : Type) (n k : Nat) : PoolState R :=
  ⟨0, List.replicate n none, List.replicate (min k n) WStatus.atLoop⟩

/-- Every worker has returned, i.e. Promise.all has resolved. -/
def allDone {R : Type} (s : PoolState R) : Prop :=
  ∀ st ∈ s.workers, st = WStatus.done

instance allDoneDec {R : Type} (s : PoolState R) : Decidable (allDone s) :=
  List.decidableBAll (fun st => st = WStatus.done) s.workers

/-- Number of workers currently suspended on slot j. -/
def awaitingCount (ws : List WStatus) (j : Nat) : Nat :=
  ws.countP (fun w => decide (w = WStatus.awaiting j))

/-- Poll interval of src/slackNotificationManager.ts, in milliseconds. -/
def POLLING_INTERVAL : Nat := 60000

/-- Start time of cycle k under the timer discipline of start(): cycle 0
is the awaited initial check at time 0; setInterval is armed when it
completes (after dur0 milliseconds), so tick k of the interval timer fires
at dur0 + k * POLLING_INTERVAL and invokes checkNewMessages immediately,
without awaiting the previous invocation. -/
def cycleStart (dur0 k : Nat) : Nat :=
  if k = 0 then 0 else dur0 + k * POLLING_INTERVAL

/-- Cycle k of a run with cycle durations dur is still in flight at the
moment cycle k + 1 starts. -/
def overlapsNext (dur : Nat → Nat) (k : Nat) : Bool :=
  decide (cycleStart (dur 0) (k + 1) < cycleStart (dur 0) k + dur k)

/-- Durations of a run where cycle 1 takes 90 seconds and every other
cycle takes half a second. -/
def slowSecondCycle : Nat → Nat := fun k => if k = 1 then 90000 else 500

/-- Fresh manager state: no timer, empty cache, first run pending. -/
def initialState : MgrState := ⟨none, [], true⟩

/-- A manager state in mid-session: timer armed, one cached count, first
run over. -/
def midState : MgrState := ⟨some 0, [("A", 2)], false⟩

/-- Environment of the C1 baseline cycle: snapshot A = 2, B = 5. -/
def c1BaselineEnv : PollEnv :=
  { token := some "xoxp-test", pinnedDMs := [],
    channels := .ok
      [⟨"A", "A", false, true, some 2⟩,
       ⟨"B", "B", false, true, some 5⟩],
    dmCount := fun _ => .ok 0 }

/-- Environment of the C1 second cycle: snapshot A = 2, B = 7, C = 1. -/
def c1SecondEnv : PollEnv :=
  { token := some "xoxp-test", pinnedDMs := [],
    channels := .ok
      [⟨"A", "A", false, true, some 2⟩,
       ⟨"B", "B", false, true, some 7⟩,
       ⟨"C", "C", false, true, some 1⟩],
    dmCount := fun _ => .ok 0 }

/-- Manager state after the C1 baseline cycle. -/
def c1Baseline : MgrState := (checkNewMessages c1BaselineEnv initialState).1

/-- A successful environment with nonzero counts for one channel and one
pinned DM. -/
def baselineEnv : PollEnv :=
  { token := some "xoxp-test", pinnedDMs := [⟨"D1", "alice"⟩],
    channels := .ok [⟨"A", "A", false, true, some 3⟩],
    dmCount := fun _ => .ok 4 }

/-- An environment whose channel listing throws. -/
def failEnv : PollEnv :=
  { token := some "xoxp-test", pinnedDMs := [],
    channels := .error (), dmCount := fun _ => .ok 0 }

/-- The C4 history scenario: 5 messages after the marker, of which 2 carry
a system subtype and 1 is authored by the session's own user ME. -/
def c4Msgs : List SlackMessage :=
  [⟨"100.1", some "U1", none, some "hi"⟩,
   ⟨"100.2", some "U1", some "channel_join", none⟩,
   ⟨"100.3", some "ME", none, some "mine"⟩,
   ⟨"100.4", some "U2", none, some "yo"⟩,
   ⟨"100.5", none, some "bot_message", none⟩]

/-- The C4 conversation environment: marker 99.9 present, identity ME
resolved, history after 99.9 returning the five scenario messages. -/
def c4Env : ConvEnv :=
  { infoRes := .ok ⟨true, some "99.9"⟩,
    histRes := fun m => if m == "99.9" then .ok ⟨true, c4Msgs⟩ else .error (),
    myUserId := some "ME",
    cachedLastRead := none }

/-- A conversation environment whose metadata fetch throws. -/
def c5FailEnv : ConvEnv :=
  { infoRes := .error (), histRes := fun _ => .error (),
    myUserId := none, cachedLastRead := none }

/-- Invariant of the worker pool: the results array keeps its length, the
shared index never passes the task count, the worker count is fixed, every
claimed slot is either owned by exactly one suspended worker (and still
unfilled) or already holds its task's outcome, unclaimed slots are
unfilled and unowned, and a worker only finishes once the queue is
exhausted. -/
def PoolInv (R : Type) (n k : Nat) (tasks : Nat → Option R)
    (s : PoolState R) : Prop :=
  s.results.length = n ∧
  s.idx ≤ n ∧
  s.workers.length = min k n ∧
  (∀ j, j < s.idx →
    (awaitingCount s.workers j = 1 ∧ s.results.get? j = some none) ∨
    (awaitingCount s.workers j = 0 ∧ s.results.get? j = some (tasks j))) ∧
  (∀ j, s.idx ≤ j → awaitingCount s.workers j = 0) ∧
  (∀ j, s.idx ≤ j → j < n → s.results.get? j = some none) ∧
  (∀ st ∈ s.workers, st = WStatus.done → n ≤ s.idx)

/-- Three tasks of which the middle one throws (none), the others return
ten times their index. -/
def c8Tasks : Nat → Option Nat := fun i => if i = 1 then none else some (10 * i)

/-- Two scripted successful pages: the first carries a continuation cursor
and one non-member channel, the second carries the empty cursor. -/
def c6Pages : List ListPage :=
  [⟨true, [⟨"A", "A", false, true, none⟩, ⟨"X", "X", false, false, none⟩], "cur1"⟩,
   ⟨true, [⟨"B", "B", false, true, none⟩], ""⟩]

/-- Three scripted successful pages where the second response repeats the
first response's cursor c before a third response ends the listing. -/
def c7RepeatPages : List ListPage :=
  [⟨true, [⟨"A", "A", false, true, none⟩], "c"⟩,
   ⟨true, [⟨"B", "B", false, true, none⟩], "c"⟩,
   ⟨true, [⟨"D", "D", false, true, none⟩], ""⟩]

theorem chanFold_fst (st : MgrState) :
    ∀ (chans : List SlackChannel) (acc : List (String × Nat) × List NotificationEvent),
    (chans.foldl (chanStep st) acc).1 = chans.foldl chanCacheStep acc.1 := by
  intro chans
  induction chans with
  | nil => intro acc; rfl
  | cons ch rest ih =>
    intro acc
    simp only [List.foldl_cons]
    rw [ih]
    rfl

theorem chanFold_snd_firstRun (st : MgrState) (hfr : st.isFirstRun = true) :
    ∀ (chans : List SlackChannel) (acc : List (String × Nat) × List NotificationEvent),
    (chans.foldl (chanStep st) acc).2 = acc.2 := by
  intro chans
  induction chans with
  | nil => intro acc; rfl
  | cons ch rest ih =>
    intro acc
    simp only [List.foldl_cons]
    rw [ih]
    simp [chanStep, hfr]

theorem dmPass_error (env : PollEnv) (st : MgrState) :
    ∀ (dms : List PinnedDM) (cache : List (String × Nat))
      (news : List NotificationEvent),
    (∃ dm ∈ dms, env.dmCount dm.dmId = .error ()) →
    dmPass env st dms cache news = .error () := by
  intro dms
  induction dms with
  | nil =>
    intro cache news h
    rcases h with ⟨dm, hmem, _⟩
    cases hmem
  | cons d rest ih =>
    intro cache news h
    rcases h with ⟨dm, hmem, herr⟩
    cases hc : env.dmCount d.dmId with
    | error e => cases e; simp [dmPass, hc]
    | ok count =>
      rcases List.mem_cons.mp hmem with heq | hmem2
      · rw [heq] at herr; rw [hc] at herr; cases herr
      · simp only [dmPass, hc]
        exact ih _ _ ⟨dm, hmem2, herr⟩

theorem dmPass_ok (env : PollEnv) (st : MgrState) :
    ∀ (dms : List PinnedDM) (cache : List (String × Nat))
      (news : List NotificationEvent),
    (∀ dm ∈ dms, exceptOk (env.dmCount dm.dmId) = true) →
    ∃ c n2, dmPass env st dms cache news = .ok (c, n2) := by
  intro dms
  induction dms with
  | nil => intro cache news _; exact ⟨cache, news, rfl⟩
  | cons d rest ih =>
    intro cache news h
    cases hc : env.dmCount d.dmId with
    | error e =>
      have := h d (List.mem_cons_self d rest)
      rw [hc] at this
      simp [exceptOk] at this
    | ok count =>
      simp only [dmPass, hc]
      exact ih _ _ (fun dm hm => h dm (List.mem_cons_of_mem d hm))

theorem dmPass_map_fst (env : PollEnv) (st : MgrState) :
    ∀ (dms : List PinnedDM) (cache : List (String × Nat))
      (news : List NotificationEvent),
    (dmPass env st dms cache news).map Prod.fst = dmCachePass env dms cache := by
  intro dms
  induction dms with
  | nil => intro cache news; rfl
  | cons d rest ih =>
    intro cache news
    cases hc : env.dmCount d.dmId with
    | error e => simp [dmPass, dmCachePass, hc, Except.map]
    | ok count =>
      simp only [dmPass, dmCachePass, hc]
      exact ih _ _

theorem dmPass_snd_firstRun (env : PollEnv) (st : MgrState)
    (hfr : st.isFirstRun = true) :
    ∀ (dms : List PinnedDM) (cache : List (String × Nat))
      (news : List NotificationEvent) (c : List (String × Nat))
      (n2 : List NotificationEvent),
    dmPass env st dms cache news = .ok (c, n2) → n2 = news := by
  intro dms
  induction dms with
  | nil =>
    intro cache news c n2 h
    simp [dmPass] at h
    exact h.2.symm
  | cons d rest ih =>
    intro cache news c n2 h
    cases hc : env.dmCount d.dmId with
    | error e => rw [dmPass, hc] at h; cases h
    | ok count =>
      rw [dmPass, hc] at h
      simp only [hfr] at h
      exact ih _ _ _ _ h

/-- C1: counterexample.  After a baseline cycle storing the snapshot
A = 2, B = 5, the second cycle whose built snapshot is A = 2, B = 7, C = 1
emits two NotificationEvents — B with delta 2 and C with delta 1 — not
exactly one: the claim that C emits nothing is false on the code. -/
theorem c1_delta_emission_counterexample :
    (checkNewMessages c1SecondEnv c1Baseline).2
      = [⟨"B", "#B", 2⟩, ⟨"C", "#C", 1⟩] ∧
    ((checkNewMessages c1SecondEnv c1Baseline).2).length ≠ 1 := by
  constructor
  · decide
  · decide

/-- C1 (amended): after a baseline cycle storing the snapshot A = 2,
B = 5, a second cycle whose built snapshot is A = 2, B = 7, C = 1 emits
exactly two NotificationEvents, in snapshot order: one for B with delta 2
and one for C with delta 1 (a conversation absent from the baseline is
treated as having previous count 0, so its first appearance notifies); A
emits nothing, and the new snapshot replaces the stored one. -/
theorem c1_delta_emission :
    (checkNewMessages c1SecondEnv c1Baseline).2
      = [⟨"B", "#B", 2⟩, ⟨"C", "#C", 1⟩] ∧
    (checkNewMessages c1SecondEnv c1Baseline).1.unreadCache
      = [("A", 2), ("B", 7), ("C", 1)] ∧
    c1Baseline.unreadCache = [("A", 2), ("B", 5)] := by
  refine ⟨by decide, by decide, by decide⟩

/-- C2: on any cycle with the first-run flag still set whose try block
succeeds (token present, channel listing and every pinned-DM fetch
successful), no notification is emitted regardless of the computed counts,
the first-run flag is cleared, and the freshly built snapshot is installed
as the stored cache (the baseline of the next cycle); the timer is
untouched. -/
theorem c2_baseline_suppression (env : PollEnv) (st : MgrState)
    (hfr : st.isFirstRun = true) (hok : cycleOk env = true) :
    (checkNewMessages env st).2 = [] ∧
    (checkNewMessages env st).1.isFirstRun = false ∧
    Except.ok (checkNewMessages env st).1.unreadCache = builtSnapshot env ∧
    (checkNewMessages env st).1.timer = st.timer := by
  rw [cycleOk, Bool.and_eq_true, Bool.and_eq_true] at hok
  obtain ⟨⟨htok, hchok⟩, hdmall⟩ := hok
  obtain ⟨chans, hch⟩ : ∃ chans, env.channels = .ok chans := by
    cases hc : env.channels with
    | ok cs => exact ⟨cs, rfl⟩
    | error e => rw [hc] at hchok; simp [exceptOk] at hchok
  have hdm : ∀ dm ∈ env.pinnedDMs, exceptOk (env.dmCount dm.dmId) = true := by
    rw [List.all_eq_true] at hdmall
    exact fun dm hm => hdmall dm hm
  obtain ⟨c, n2, hrun⟩ :=
    dmPass_ok env st env.pinnedDMs (channelPass st chans).1
      (channelPass st chans).2 hdm
  have hnews : n2 = [] := by
    have h1 := dmPass_snd_firstRun env st hfr _ _ _ _ _ hrun
    have h2 : (channelPass st chans).2 = [] :=
      chanFold_snd_firstRun st hfr chans ([], [])
    rw [h1, h2]
  have hcache : dmCachePass env env.pinnedDMs (chans.foldl chanCacheStep [])
      = .ok c := by
    have h1 := dmPass_map_fst env st env.pinnedDMs (channelPass st chans).1
      (channelPass st chans).2
    rw [hrun] at h1
    have h2 : (channelPass st chans).1 = chans.foldl chanCacheStep [] :=
      chanFold_fst st chans ([], [])
    rw [h2] at h1
    exact h1.symm
  have hmain : checkNewMessages env st
      = ({ st with unreadCache := c, isFirstRun := false }, n2) := by
    rw [checkNewMessages, htok]
    simp only [Bool.not_true, Bool.false_eq_true, if_false, hch]
    rw [hrun]
  rw [hmain]
  refine ⟨hnews, rfl, ?_, rfl⟩
  rw [builtSnapshot, hch]
  exact hcache.symm

/-- C2 witness at a concrete successful first cycle with nonzero counts. -/
theorem c2_baseline_suppression_witness :
    (checkNewMessages baselineEnv initialState).2 = [] ∧
    (checkNewMessages baselineEnv initialState).1.isFirstRun = false ∧
    Except.ok (checkNewMessages baselineEnv initialState).1.unreadCache
      = builtSnapshot baselineEnv ∧
    (checkNewMessages baselineEnv initialState).1.timer = initialState.timer :=
  c2_baseline_suppression baselineEnv initialState rfl (by decide)

/-- C3: when the token is present but building the new snapshot throws —
the channel listing fails, or the unread fetch of some pinned DM fails —
the cycle leaves the manager state (stored snapshot, first-run flag and
timer) exactly as it was and emits no notification. -/
theorem c3_cycle_failure_isolation (env : PollEnv) (st : MgrState)
    (htok : optTruthy env.token = true)
    (hfail : env.channels = .error () ∨
      ∃ dm ∈ env.pinnedDMs, env.dmCount dm.dmId = .error ()) :
    checkNewMessages env st = (st, []) := by
  rw [checkNewMessages, htok]
  rcases hfail with hch | hdm
  · simp [hch]
  · cases hch : env.channels with
    | error e => simp
    | ok chans =>
      simp only [Bool.not_true, Bool.false_eq_true, if_false]
      rw [dmPass_error env st env.pinnedDMs _ _ hdm]

/-- C3 witness: a failing channel listing against a mid-session state. -/
theorem c3_cycle_failure_isolation_witness :
    checkNewMessages failEnv midState = (midState, []) :=
  c3_cycle_failure_isolation failEnv midState rfl (Or.inl rfl)

/-- C10: starting an already running poller keeps its state and runs no
cycle, and stopping an already stopped poller keeps its state: for any
state with an armed timer, start is the identity and emits nothing; for
any state without a timer, stop is the identity; and both operations are
idempotent from any state. -/
theorem c10_start_stop_idempotent (env env2 : PollEnv) (t : Nat)
    (cache : List (String × Nat)) (fr : Bool) (st : MgrState) :
    start env ⟨some t, cache, fr⟩ = (⟨some t, cache, fr⟩, []) ∧
    stop ⟨none, cache, fr⟩ = ⟨none, cache, fr⟩ ∧
    start env2 (start env st).1 = ((start env st).1, []) ∧
    stop (stop st) = stop st := by
  refine ⟨rfl, rfl, ?_, ?_⟩
  · cases hst : st.timer with
    | some u =>
      have h1 : start env st = (st, []) := by rw [start, hst]
      rw [h1, start, hst]
    | none =>
      have h1 : start env st
          = ({ (checkNewMessages env st).1 with timer := some 0 },
             (checkNewMessages env st).2) := by rw [start, hst]
      rw [h1, start]
  · cases hst : st.timer with
    | some u =>
      have h1 : stop st = { st with timer := none } := by rw [stop, hst]
      rw [h1, stop]
    | none =>
      have h1 : stop st = st := by rw [stop, hst]
      rw [h1, h1]

/-- C4: with a last-read marker present in the metadata (no local cache
override) and the session's own identity resolved, the derived unread
count is exactly the number of history messages after the marker whose
subtype is empty and whose author is not the session's own identity. -/
theorem c4_unread_marker_present (env : ConvEnv) (t me : String)
    (msgs : List SlackMessage)
    (hinfo : env.infoRes = .ok ⟨true, some t⟩)
    (hcache : env.cachedLastRead = none)
    (ht : t ≠ "")
    (hme : env.myUserId = some me) (hmene : me ≠ "")
    (hhist : env.histRes t = .ok ⟨true, msgs⟩) :
    getConversationUnreadCount env
      = (msgs.filter
          (fun m => (m.subtype.getD "" == "") && !(m.user == some me))).length := by
  have hpred : ∀ m : SlackMessage,
      keepUnread (some me) m
        = ((m.subtype.getD "" == "") && !(m.user == some me)) := by
    intro m
    rw [keepUnread]
    have h1 : optTruthy (some me) = true := by
      simp only [optTruthy, bne_iff_ne, ne_eq]
      exact hmene
    rw [h1, Bool.true_and]
    congr 1
    cases m.subtype with
    | none => rfl
    | some s => simp [optTruthy, bne]
  have heff : effectiveLastRead env.cachedLastRead (some t) = some t := by
    rw [hcache]; rfl
  have htb : (t == "") = false := by
    exact beq_eq_false_iff_ne.mpr ht
  rw [getConversationUnreadCount, hinfo]
  simp only [heff, htb, Bool.not_true, Bool.false_eq_true, if_false, hhist, hme]
  rw [List.filter_congr (fun m _ => hpred m)]

/-- C4 witness: the scenario with 5 messages after the marker, 2 of them
system-subtyped and 1 authored by the session's own user, yields unread
count 2. -/
theorem c4_unread_marker_present_witness :
    getConversationUnreadCount c4Env = 2 := by
  have h := c4_unread_marker_present c4Env "99.9" "ME" c4Msgs rfl rfl
    (by decide) rfl (by decide) (by decide)
  rw [h]
  decide

/-- C5: the per-conversation unread computation is a total function into
the natural numbers (it never throws and is never negative), and it
returns exactly 0 in every failure or absence case: the metadata fetch
throws or is not ok, the effective last-read marker is falsy, or the
history fetch throws or is not ok. -/
theorem c5_unread_safe_fallback (env : ConvEnv)
    (h : env.infoRes = .error ()
      ∨ (∃ info, env.infoRes = .ok info ∧ info.ok = false)
      ∨ (∃ info, env.infoRes = .ok info ∧ info.ok = true ∧
          optTruthy (effectiveLastRead env.cachedLastRead info.lastRead) = false)
      ∨ (∃ info marker, env.infoRes = .ok info ∧ info.ok = true ∧
          effectiveLastRead env.cachedLastRead info.lastRead = some marker ∧
          env.histRes marker = .error ())
      ∨ (∃ info marker hist, env.infoRes = .ok info ∧ info.ok = true ∧
          effectiveLastRead env.cachedLastRead info.lastRead = some marker ∧
          env.histRes marker = .ok hist ∧ hist.ok = false)) :
    getConversationUnreadCount env = 0 ∧ 0 ≤ getConversationUnreadCount env := by
  refine ⟨?_, Nat.zero_le _⟩
  rcases h with h1 | h2 | h3 | h4 | h5
  · rw [getConversationUnreadCount, h1]
  · obtain ⟨info, heq, hok⟩ := h2
    rw [getConversationUnreadCount, heq]
    simp [hok]
  · obtain ⟨info, heq, hok, hlr⟩ := h3
    rw [getConversationUnreadCount, heq]
    cases heff : effectiveLastRead env.cachedLastRead info.lastRead with
    | none => simp [hok, heff]
    | some marker =>
      rw [heff] at hlr
      have hm : (marker == "") = true := by
        simp only [optTruthy] at hlr
        simpa using hlr
      simp [hok, heff, hm]
  · obtain ⟨info, marker, heq, hok, heff, hhist⟩ := h4
    rw [getConversationUnreadCount, heq]
    by_cases hm : marker = ""
    · simp [hok, heff, hm]
    · have hmb : (marker == "") = false := beq_eq_false_iff_ne.mpr hm
      simp [hok, heff, hmb, hhist]
  · obtain ⟨info, marker, hist, heq, hok, heff, hhist, hho⟩ := h5
    rw [getConversationUnreadCount, heq]
    by_cases hm : marker = ""
    · simp [hok, heff, hm]
    · have hmb : (marker == "") = false := beq_eq_false_iff_ne.mpr hm
      simp [hok, heff, hmb, hhist, hho]

/-- C5 witness: a thrown metadata fetch yields unread count 0. -/
theorem c5_unread_safe_fallback_witness :
    getConversationUnreadCount c5FailEnv = 0 ∧
    0 ≤ getConversationUnreadCount c5FailEnv :=
  c5_unread_safe_fallback c5FailEnv (Or.inl rfl)

theorem listPagesGo_cons (p : ListPage) (rest : List ListPage)
    (acc : List SlackChannel) (n : Nat) :
    listPagesGo (p :: rest) acc n
      = if !p.ok then .error ()
        else
          let acc2 := acc ++ p.channels.filter (fun ch => ch.is_member)
          if p.nextCursor == "" then .ok (acc2, n + 1)
          else listPagesGo rest acc2 (n + 1) := rfl

theorem listPagesGo_complete :
    ∀ (pages : List ListPage) (plast : ListPage),
    pages.getLast? = some plast →
    plast.nextCursor = "" →
    (∀ p ∈ pages, p.ok = true) →
    (∀ p ∈ pages.dropLast, p.nextCursor ≠ "") →
    ∀ (acc : List SlackChannel) (n : Nat),
    listPagesGo pages acc n
      = .ok (acc ++
          (pages.map (fun p => p.channels.filter (fun ch => ch.is_member))).flatten,
          n + pages.length) := by
  intro pages
  induction pages with
  | nil => intro plast h; cases h
  | cons p rest ih =>
    intro plast hlast hlastc hok hmid acc n
    have hpok : p.ok = true := hok p (List.mem_cons_self p rest)
    cases rest with
    | nil =>
      have hpl : p = plast := by simpa using hlast
      have hpc : (p.nextCursor == "") = true := by
        rw [hpl, hlastc]
        rfl
      simp [listPagesGo, hpok, hpc]
    | cons q rest2 =>
      have hpm : p.nextCursor ≠ "" := by
        apply hmid p
        rw [List.dropLast_cons₂]
        exact List.mem_cons_self p (q :: rest2).dropLast
      have hpc : (p.nextCursor == "") = false := beq_eq_false_iff_ne.mpr hpm
      have hrec := ih plast (by rw [← List.getLast?_cons_cons (a := p)]; exact hlast)
        hlastc
        (fun r hr => hok r (List.mem_cons_of_mem p hr))
        (fun r hr => hmid r (by rw [List.dropLast_cons₂]; exact List.mem_cons_of_mem p hr))
        (acc ++ p.channels.filter (fun ch => ch.is_member)) (n + 1)
      rw [listPagesGo_cons]
      simp only [hpok, hpc, Bool.not_true, Bool.false_eq_true, if_false]
      rw [hrec]
      simp [List.append_assoc]
      omega

/-- C6: for a scripted sequence of successful pages of which each carries
a non-empty continuation cursor except the last (empty cursor), the
channel pagination loop issues exactly one request per page and returns
the pages' member-flagged channels concatenated in original order. -/
theorem c6_pagination_completeness (pages : List ListPage) (plast : ListPage)
    (hlast : pages.getLast? = some plast)
    (hlastc : plast.nextCursor = "")
    (hok : ∀ p ∈ pages, p.ok = true)
    (hmid : ∀ p ∈ pages.dropLast, p.nextCursor ≠ "") :
    listAllChannels pages
      = .ok ((pages.map (fun p => p.channels.filter (fun ch => ch.is_member))).flatten,
          pages.length) := by
  rw [listAllChannels, listPagesGo_complete pages plast hlast hlastc hok hmid [] 0]
  simp

/-- C6 witness: two scripted pages, the first with a continuation cursor
and a non-member channel, yield the two member channels in order with
exactly two requests. -/
theorem c6_pagination_completeness_witness :
    listAllChannels c6Pages
      = .ok ([⟨"A", "A", false, true, none⟩, ⟨"B", "B", false, true, none⟩], 2) := by
  have h := c6_pagination_completeness c6Pages
    ⟨true, [⟨"B", "B", false, true, none⟩], ""⟩
    (by decide) (by decide) (by decide) (by decide)
  rw [h]
  decide

theorem listFuelGo_constCursor (fuel : Nat) :
    ∀ (cursor : String) (acc : List SlackChannel) (n : Nat),
    listFuelGo constCursorRemote fuel cursor acc n = none := by
  induction fuel with
  | zero => intro cursor acc n; rfl
  | succ f ih =>
    intro cursor acc n
    simp only [listFuelGo, constCursorRemote]
    simpa using ih "c" acc (n + 1)

/-- C7: counterexample.  A response whose continuation cursor repeats the
previous one is not treated as termination: on the script whose second
page repeats the cursor c, the loop issues a third request and returns all
three pages' channels with request count 3, not the two-page result the
claim demands. -/
theorem c7_repeated_cursor_counterexample :
    listAllChannels c7RepeatPages
      = .ok ([⟨"A", "A", false, true, none⟩, ⟨"B", "B", false, true, none⟩,
          ⟨"D", "D", false, true, none⟩], 3) ∧
    listAllChannels c7RepeatPages
      ≠ .ok ([⟨"A", "A", false, true, none⟩, ⟨"B", "B", false, true, none⟩], 2) := by
  constructor
  · decide
  · decide

/-- C7 (amended): the pagination loop terminates only via an empty
returned cursor or a thrown error; a repeated cursor is not treated as
termination (the repeated-cursor script takes a third request), and
against a remote that answers every request with the same non-empty
cursor the loop completes within no iteration bound at all. -/
theorem c7_cursor_termination (fuel : Nat) :
    listAllChannelsFuel constCursorRemote fuel = none ∧
    listAllChannels c7RepeatPages
      = .ok ([⟨"A", "A", false, true, none⟩, ⟨"B", "B", false, true, none⟩,
          ⟨"D", "D", false, true, none⟩], 3) :=
  ⟨listFuelGo_constCursor fuel "" [] 0, by decide⟩

theorem countP_set_aux (p : WStatus → Bool) :
    ∀ (ws : List WStatus) (w : Nat) (a x : WStatus), ws.get? w = some a →
    (ws.set w x).countP p + (if p a then 1 else 0)
      = ws.countP p + (if p x then 1 else 0) := by
  intro ws
  induction ws with
  | nil => intro w a x h; cases h
  | cons b t ih =>
    intro w a x h
    cases w with
    | zero =>
      simp only [List.get?] at h
      cases h
      simp only [List.set]
      rw [List.countP_cons, List.countP_cons]
      omega
    | succ w2 =>
      simp only [List.get?] at h
      simp only [List.set]
      rw [List.countP_cons, List.countP_cons]
      have := ih w2 a x h
      omega

theorem atLoop_aw_false (j : Nat) :
    (decide (WStatus.atLoop = WStatus.awaiting j)) = false := by simp

theorem done_aw_false (j : Nat) :
    (decide (WStatus.done = WStatus.awaiting j)) = false := by simp

theorem aw_aw_true (j : Nat) :
    (decide (WStatus.awaiting j = WStatus.awaiting j)) = true := by simp

theorem aw_ne_false (i j : Nat) (h : i ≠ j) :
    (decide (WStatus.awaiting i = WStatus.awaiting j)) = false := by simp [h]

theorem awaitingCount_set_other (ws : List WStatus) (w : Nat)
    (a x : WStatus) (j : Nat) (hw : ws.get? w = some a)
    (ha : (decide (a = WStatus.awaiting j)) = false)
    (hx : (decide (x = WStatus.awaiting j)) = false) :
    awaitingCount (ws.set w x) j = awaitingCount ws j := by
  have h := countP_set_aux (fun v => decide (v = WStatus.awaiting j)) ws w a x hw
  simp only [ha, hx] at h
  simpa using h

theorem awaitingCount_set_add (ws : List WStatus) (w : Nat)
    (a x : WStatus) (j : Nat) (hw : ws.get? w = some a)
    (ha : (decide (a = WStatus.awaiting j)) = false)
    (hx : (decide (x = WStatus.awaiting j)) = true) :
    awaitingCount (ws.set w x) j = awaitingCount ws j + 1 := by
  have h := countP_set_aux (fun v => decide (v = WStatus.awaiting j)) ws w a x hw
  simp only [ha, hx] at h
  simpa using h

theorem awaitingCount_set_sub (ws : List WStatus) (w : Nat)
    (a x : WStatus) (j : Nat) (hw : ws.get? w = some a)
    (ha : (decide (a = WStatus.awaiting j)) = true)
    (hx : (decide (x = WStatus.awaiting j)) = false) :
    awaitingCount (ws.set w x) j + 1 = awaitingCount ws j := by
  have h := countP_set_aux (fun v => decide (v = WStatus.awaiting j)) ws w a x hw
  simp only [ha, hx] at h
  simpa using h

theorem poolInv_init (R : Type) (n k : Nat) (tasks : Nat → Option R) :
    PoolInv R n k tasks (poolInit R n k) := by
  dsimp only [PoolInv, poolInit]
  refine ⟨List.length_replicate n none, Nat.zero_le n,
    List.length_replicate (min k n) WStatus.atLoop, ?_, ?_, ?_, ?_⟩
  · intro j hj
    exact absurd hj (Nat.not_lt_zero j)
  · intro j hj
    rw [awaitingCount, List.countP_eq_zero]
    intro a ha
    rw [List.eq_of_mem_replicate ha, atLoop_aw_false]
    simp
  · intro j hj hjn
    rw [List.get?_eq_getElem?]
    simp [List.getElem?_replicate, hjn]
  · intro st hst hd
    rw [List.eq_of_mem_replicate hst] at hd
    cases hd

theorem poolInv_step (R : Type) (n k : Nat) (tasks : Nat → Option R)
    (s : PoolState R) (w : Nat) (h : PoolInv R n k tasks s) :
    PoolInv R n k tasks (poolStep n tasks s w) := by
  have h2 := h
  obtain ⟨hlen, hidx, hwlen, hlt, hge, hgeres, hdone⟩ := h2
  cases hw : s.workers.get? w with
  | none =>
    have hstep : poolStep n tasks s w = s := by
      simp only [poolStep, hw]
    rw [hstep]
    exact h
  | some a =>
    have hamem : a ∈ s.workers := List.get?_mem hw
    cases a with
    | done =>
      have hstep : poolStep n tasks s w = s := by
        simp only [poolStep, hw]
      rw [hstep]
      exact h
    | atLoop =>
      by_cases hi : s.idx < n
      · have hstep : poolStep n tasks s w
            = ⟨s.idx + 1, s.results, s.workers.set w (WStatus.awaiting s.idx)⟩ := by
          simp only [poolStep, hw, if_pos hi]
        rw [hstep]
        dsimp only [PoolInv]
        refine ⟨hlen, by omega, ?_, ?_, ?_, ?_, ?_⟩
        · rw [List.length_set]; exact hwlen
        · intro j hj
          by_cases hji : j = s.idx
          · left
            rw [hji]
            refine ⟨?_, hgeres s.idx (Nat.le_refl _) hi⟩
            have hadd := awaitingCount_set_add s.workers w WStatus.atLoop
              (WStatus.awaiting s.idx) s.idx hw (atLoop_aw_false s.idx)
              (aw_aw_true s.idx)
            rw [hadd, hge s.idx (Nat.le_refl _)]
          · have hjlt : j < s.idx := by omega
            have hoth := awaitingCount_set_other s.workers w WStatus.atLoop
              (WStatus.awaiting s.idx) j hw (atLoop_aw_false j)
              (aw_ne_false s.idx j (fun hh => hji hh.symm))
            rcases hlt j hjlt with ⟨h1, hr⟩ | ⟨h1, hr⟩
            · left; exact ⟨by rw [hoth]; exact h1, hr⟩
            · right; exact ⟨by rw [hoth]; exact h1, hr⟩
        · intro j hj
          have hji : s.idx ≠ j := by omega
          have hoth := awaitingCount_set_other s.workers w WStatus.atLoop
            (WStatus.awaiting s.idx) j hw (atLoop_aw_false j)
            (aw_ne_false s.idx j hji)
          rw [hoth]
          exact hge j (by omega)
        · intro j hj hjn
          exact hgeres j (by omega) hjn
        · intro st hst hd
          rcases List.mem_or_eq_of_mem_set hst with hin | heq
          · have := hdone st hin hd
            omega
          · rw [heq] at hd
            cases hd
      · have hstep : poolStep n tasks s w
            = ⟨s.idx, s.results, s.workers.set w WStatus.done⟩ := by
          simp only [poolStep, hw, if_neg hi]
        rw [hstep]
        dsimp only [PoolInv]
        refine ⟨hlen, hidx, ?_, ?_, ?_, hgeres, ?_⟩
        · rw [List.length_set]; exact hwlen
        · intro j hj
          have hoth := awaitingCount_set_other s.workers w WStatus.atLoop
            WStatus.done j hw (atLoop_aw_false j) (done_aw_false j)
          rcases hlt j hj with ⟨h1, hr⟩ | ⟨h1, hr⟩
          · left; exact ⟨by rw [hoth]; exact h1, hr⟩
          · right; exact ⟨by rw [hoth]; exact h1, hr⟩
        · intro j hj
          have hoth := awaitingCount_set_other s.workers w WStatus.atLoop
            WStatus.done j hw (atLoop_aw_false j) (done_aw_false j)
          rw [hoth]
          exact hge j hj
        · intro st hst hd
          omega
    | awaiting i =>
      have hpos : 0 < awaitingCount s.workers i := by
        rw [awaitingCount]
        refine List.countP_pos_iff.mpr ⟨WStatus.awaiting i, hamem, ?_⟩
        simp
      have hilt : i < s.idx := by
        by_contra hc
        push_neg at hc
        have := hge i hc
        omega
      have hin2 : i < n := by omega
      have hleft : awaitingCount s.workers i = 1 ∧ s.results.get? i = some none := by
        rcases hlt i hilt with hL | ⟨hc0, hr0⟩
        · exact hL
        · omega
      obtain ⟨hc1, hr1⟩ := hleft
      cases ht : tasks i with
      | some r =>
        have hstep : poolStep n tasks s w
            = ⟨s.idx, s.results.set i (some r),
               s.workers.set w WStatus.atLoop⟩ := by
          simp only [poolStep, hw, ht]
        rw [hstep]
        dsimp only [PoolInv]
        refine ⟨?_, hidx, ?_, ?_, ?_, ?_, ?_⟩
        · rw [List.length_set]; exact hlen
        · rw [List.length_set]; exact hwlen
        · intro j hj
          by_cases hji : j = i
          · right
            rw [hji]
            constructor
            · have hsub := awaitingCount_set_sub s.workers w (WStatus.awaiting i)
                WStatus.atLoop i hw (aw_aw_true i) (atLoop_aw_false i)
              omega
            · rw [List.get?_set_eq_of_lt (some r) (by rw [hlen]; exact hin2)]
              rw [ht]
          · have hoth := awaitingCount_set_other s.workers w (WStatus.awaiting i)
              WStatus.atLoop j hw (aw_ne_false i j (fun hh => hji hh.symm))
              (atLoop_aw_false j)
            have hres : (s.results.set i (some r)).get? j = s.results.get? j :=
              List.get?_set_ne (some r) s.results (fun hh => hji hh.symm)
            rcases hlt j hj with ⟨h1, hr⟩ | ⟨h1, hr⟩
            · left; exact ⟨by rw [hoth]; exact h1, by rw [hres]; exact hr⟩
            · right; exact ⟨by rw [hoth]; exact h1, by rw [hres]; exact hr⟩
        · intro j hj
          have hji : i ≠ j := by omega
          have hoth := awaitingCount_set_other s.workers w (WStatus.awaiting i)
            WStatus.atLoop j hw (aw_ne_false i j hji) (atLoop_aw_false j)
          rw [hoth]
          exact hge j hj
        · intro j hj hjn
          have hji : i ≠ j := by omega
          have hres : (s.results.set i (some r)).get? j = s.results.get? j :=
            List.get?_set_ne (some r) s.results hji
          rw [hres]
          exact hgeres j hj hjn
        · intro st hst hd
          rcases List.mem_or_eq_of_mem_set hst with hin | heq
          · exact hdone st hin hd
          · rw [heq] at hd
            cases hd
      | none =>
        have hstep : poolStep n tasks s w
            = ⟨s.idx, s.results, s.workers.set w WStatus.atLoop⟩ := by
          simp only [poolStep, hw, ht]
        rw [hstep]
        dsimp only [PoolInv]
        refine ⟨hlen, hidx, ?_, ?_, ?_, hgeres, ?_⟩
        · rw [List.length_set]; exact hwlen
        · intro j hj
          by_cases hji : j = i
          · right
            rw [hji]
            constructor
            · have hsub := awaitingCount_set_sub s.workers w (WStatus.awaiting i)
                WStatus.atLoop i hw (aw_aw_true i) (atLoop_aw_false i)
              omega
            · rw [hr1, ht]
          · have hoth := awaitingCount_set_other s.workers w (WStatus.awaiting i)
              WStatus.atLoop j hw (aw_ne_false i j (fun hh => hji hh.symm))
              (atLoop_aw_false j)
            rcases hlt j hj with ⟨h1, hr⟩ | ⟨h1, hr⟩
            · left; exact ⟨by rw [hoth]; exact h1, hr⟩
            · right; exact ⟨by rw [hoth]; exact h1, hr⟩
        · intro j hj
          have hji : i ≠ j := by omega
          have hoth := awaitingCount_set_other s.workers w (WStatus.awaiting i)
            WStatus.atLoop j hw (aw_ne_false i j hji) (atLoop_aw_false j)
          rw [hoth]
          exact hge j hj
        · intro st hst hd
          rcases List.mem_or_eq_of_mem_set hst with hin | heq
          · exact hdone st hin hd
          · rw [heq] at hd
            cases hd

theorem poolInv_run (R : Type) (n k : Nat) (tasks : Nat → Option R) :
    ∀ (choices : List Nat) (s : PoolState R), PoolInv R n k tasks s →
    PoolInv R n k tasks (poolRun n tasks s choices) := by
  intro choices
  induction choices with
  | nil => intro s h; exact h
  | cons c cs ih =>
    intro s h
    exact ih _ (poolInv_step R n k tasks s c h)

/-- C8: under every cooperative schedule that runs the
withConcurrencyLimit pool with limit k ≥ 1 over n tasks to completion,
the returned results array has length n and its slot i holds exactly the
outcome of task i, in original index order: the task's value when it
succeeds, and the unfilled slot (JS undefined, the documented fallback)
when it throws — so a failing task never aborts its siblings and no
exception escapes the pool. -/
theorem c8_pool_order_isolation (R : Type) (n k : Nat)
    (tasks : Nat → Option R) (choices : List Nat) (hk : 1 ≤ k)
    (hfin : allDone (poolRun n tasks (poolInit R n k) choices)) :
    (poolRun n tasks (poolInit R n k) choices).results
      = (List.range n).map tasks ∧
    (poolRun n tasks (poolInit R n k) choices).results.length = n := by
  obtain ⟨hlen, hidx, hwlen, hlt, hge, hgeres, hdn⟩ :=
    poolInv_run R n k tasks choices _ (poolInv_init R n k tasks)
  set s := poolRun n tasks (poolInit R n k) choices with hs
  by_cases hn : n = 0
  · subst hn
    constructor
    · have hnil : s.results = [] := List.eq_nil_of_length_eq_zero hlen
      rw [hnil]
      rfl
    · exact hlen
  · have hwne : s.workers ≠ [] := by
      intro hnil
      rw [hnil] at hwlen
      simp at hwlen
      omega
    obtain ⟨st0, hst0⟩ := List.exists_mem_of_ne_nil s.workers hwne
    have hidxn : n ≤ s.idx := hdn st0 hst0 (hfin st0 hst0)
    have hnoaw : ∀ j, awaitingCount s.workers j = 0 := by
      intro j
      rw [awaitingCount, List.countP_eq_zero]
      intro a ha
      have := hfin a ha
      rw [this]
      simp
    have hslot : ∀ j, s.results.get? j = ((List.range n).map tasks).get? j := by
      intro j
      by_cases hj : j < n
      · rcases hlt j (by omega) with ⟨h1, _⟩ | ⟨_, h2⟩
        · rw [hnoaw j] at h1
          cases h1
        · rw [h2, List.get?_eq_getElem?]
          rw [List.getElem?_map tasks (List.range n) j]
          simp [List.getElem?_range, hj]
      · have h1 : s.results.get? j = none :=
          List.get?_eq_none.mpr (by rw [hlen]; omega)
        have h2 : ((List.range n).map tasks).get? j = none :=
          List.get?_eq_none.mpr (by simp; omega)
        rw [h1, h2]
    exact ⟨List.ext_get? hslot, hlen⟩

/-- C8 witness: three tasks with limit 2 where task 1 throws, run under a
concrete completing schedule, yield the array of the three task outcomes
in index order, slot 1 holding the unfilled fallback. -/
theorem c8_pool_order_isolation_witness :
    (poolRun 3 c8Tasks (poolInit Nat 3 2) [0, 0, 0, 0, 0, 0, 0, 1]).results
      = (List.range 3).map c8Tasks ∧
    (poolRun 3 c8Tasks (poolInit Nat 3 2) [0, 0, 0, 0, 0, 0, 0, 1]).results.length
      = 3 :=
  c8_pool_order_isolation Nat 3 2 c8Tasks [0, 0, 0, 0, 0, 0, 0, 1]
    (by decide) (by decide)

/-- C9: counterexample.  The timer is a fixed-rate setInterval whose
callback does not await the previous cycle: with cycle 1 lasting 90
seconds and the polling interval at 60 seconds, cycle 2 starts while cycle
1 is still in flight — the cycles overlap — and the gap from cycle 1's end
to cycle 2's start is not the polling interval. -/
theorem c9_no_overlap_counterexample :
    overlapsNext slowSecondCycle 1 = true ∧
    cycleStart (slowSecondCycle 0) 2
      ≠ cycleStart (slowSecondCycle 0) 1 + slowSecondCycle 1 + POLLING_INTERVAL := by
  constructor
  · decide
  · decide

/-- C9 (amended): while running, cycles are scheduled at a fixed rate, not
a fixed delay: for every k ≥ 1, cycle k + 1 starts exactly
POLLING_INTERVAL after cycle k started, independent of cycle durations,
and consecutive cycles overlap exactly when a cycle's duration exceeds the
interval. -/
theorem c9_fixed_rate_overlap (dur : Nat → Nat) (k : Nat) (hk : 1 ≤ k) :
    cycleStart (dur 0) (k + 1) = cycleStart (dur 0) k + POLLING_INTERVAL ∧
    (overlapsNext dur k = true ↔ POLLING_INTERVAL < dur k) := by
  have hk0 : k ≠ 0 := by omega
  have hk1 : k + 1 ≠ 0 := by omega
  constructor
  · rw [cycleStart, cycleStart, if_neg hk1, if_neg hk0]
    ring
  · rw [overlapsNext, cycleStart, cycleStart, if_neg hk1, if_neg hk0]
    rw [decide_eq_true_eq]
    simp only [POLLING_INTERVAL]
    constructor
    · intro hlt2
      omega
    · intro hlt2
      omega

/-- C9 amended witness at the run with a slow second cycle, k = 1. -/
theorem c9_fixed_rate_overlap_witness :
    cycleStart (slowSecondCycle 0) (1 + 1)
      = cycleStart (slowSecondCycle 0) 1 + POLLING_INTERVAL ∧
    (overlapsNext slowSecondCycle 1 = true ↔ POLLING_INTERVAL < slowSecondCycle 1) :=
  c9_fixed_rate_overlap slowSecondCycle 1 (by decide)

end SlackVscode
